import Mathlib

/-!
Verification of the volume-driver orchestration core of the gce-docker
repository (file plugin/volume.go).

The driver composes two external collaborators, a remote disk provider and
a local filesystem, modelled here as an oracle structure of response
functions.  Every operation is embedded as a function returning both the
response it produces and the trace of external calls it issued, in order.
Go errors are modelled as `Option String` (`none` is a nil error, `some s`
an error whose textual description, `err.Error()`, is `s`); fallible
functions returning a value use `Except String`.
-/

set_option maxHeartbeats 1000000

/-- Simplified model of Go %q formatting (`strconv.Quote`): the string is
wrapped in double quotes.  Escaping of special characters inside the string
is elided; none of the inputs considered here contains such characters. -/
def goQuote (s : String) : String := "\"" ++ s ++ "\""

/-- Modelled from the spec: the DiskConfig data model of the providers
package (not part of the sources under verification; the spec, section 3,
gives its fields: Name, Type, SizeGb, SourceSnapshot, SourceImage).  The Go
field `Type` is renamed `Type_` because `Type` is a Lean keyword. -/
structure DiskConfig where
  Name : String := ""
  Type_ : String := ""
  SizeGb : Int := 0
  SourceSnapshot : String := ""
  SourceImage : String := ""
deriving DecidableEq, Repr

/-- Modelled from the spec: `MountPoint(root)` is a deterministic path
computed by joining a root directory with `Name` (spec section 3).  The
driver passes a root ending in a slash, so joining is concatenation. -/
def DiskConfig.MountPoint (c : DiskConfig) (root : String) : String :=
  root ++ c.Name

/-- Modelled from the spec: `Dev()` computes a deterministic device path
from `Name` alone (spec section 3, `DevicePath()`). -/
def DiskConfig.Dev (c : DiskConfig) : String :=
  "/dev/disk/by-id/google-" ++ c.Name

/-- Modelled from the spec: `Validate()` of the providers package rejects a
configuration missing required data, minimally a non-empty `Name`
(spec section 4.1), returning the first violation found. -/
def DiskConfig.Validate (c : DiskConfig) : Option String :=
  if c.Name = "" then some ("disk name is mandatory") else none

/-- One disk summary returned by the provider listing: `Name` and a
readiness `Status`. -/
structure DiskSummary where
  Name : String
  Status : String
deriving DecidableEq, Repr

/-- The docker volume payload (`volume.Volume` of the plugin helpers):
a name and a mount point. -/
structure VolumeInfo where
  Name : String
  Mountpoint : String := ""
deriving DecidableEq, Repr

/-- The capability descriptor (`volume.Capability`). -/
structure Capability where
  Scope : String := ""
deriving DecidableEq, Repr

/-- The docker volume response (`volume.Response`): an error text (empty
for success) and the success payload fields. -/
structure Response where
  Err : String := ""
  Volumes : List VolumeInfo := []
  Volume : Option VolumeInfo := none
  Mountpoint : String := ""
  Capabilities : Capability := {}
deriving DecidableEq, Repr

/-- The docker volume request (`volume.Request`): a name and an option
mapping.  The Go map is embedded as an association list giving one
iteration order; a genuine map has pairwise distinct keys. -/
structure Request where
  Name : String
  Options : List (String × String) := []
deriving DecidableEq, Repr

/-- Result of `fs.Stat` as the driver observes it: the path does not exist
(`os.IsNotExist` holds of the error), the stat succeeded and reports
whether the path is a directory, or some other error occurred. -/
inductive StatResult where
  | notExist : StatResult
  | ok (isDir : Bool) : StatResult
  | otherError (msg : String) : StatResult
deriving DecidableEq, Repr

/-- One external call issued by the driver, with its arguments. -/
inductive Event where
  | providerCreate (c : DiskConfig) : Event
  | providerList : Event
  | providerAttach (c : DiskConfig) : Event
  | providerDetach (c : DiskConfig) : Event
  | providerDelete (c : DiskConfig) : Event
  | fsStat (path : String) : Event
  | fsMkdirAll (path : String) (mode : Nat) : Event
  | fsFormat (dev : String) : Event
  | fsMount (dev : String) (target : String) : Event
  | fsUnmount (target : String) : Event
deriving DecidableEq, Repr

/-- A trace of external calls, in the order they were issued. -/
abbrev Trace := List Event

/-- Decidable equality for `Except`, used to evaluate derivation results
on concrete inputs. -/
instance {α β : Type} [DecidableEq α] [DecidableEq β] : DecidableEq (Except α β) := fun x y =>
  match x, y with
  | .error a, .error b =>
    if h : a = b then isTrue (by rw [h]) else isFalse (fun hh => h (Except.error.inj hh))
  | .ok a, .ok b =>
    if h : a = b then isTrue (by rw [h]) else isFalse (fun hh => h (Except.ok.inj hh))
  | .error _, .ok _ => isFalse (fun hh => Except.noConfusion hh)
  | .ok _, .error _ => isFalse (fun hh => Except.noConfusion hh)

/-- Oracle for the two external collaborators: the outcome each call would
produce.  `none` models a nil Go error, `some s` an error with text `s`. -/
structure Env where
  providerCreate : DiskConfig → Option String
  providerList : Except String (List DiskSummary)
  providerAttach : DiskConfig → Option String
  providerDetach : DiskConfig → Option String
  providerDelete : DiskConfig → Option String
  fsStat : String → StatResult
  fsMkdirAll : String → Option String
  fsFormat : String → Option String
  fsMount : String → String → Option String
  fsUnmount : String → Option String

/-- The driver state (`plugin.Volume`): the mount root and the two
collaborators (provider and filesystem, both inside `env`). -/
structure Volume where
  Root : String
  env : Env

/-- Model of Go `strconv.ParseInt(s, 10, 64)`: an optional sign followed by
at least one decimal digit, with the result required to fit in a signed
64-bit integer.  Error texts follow the `strconv.NumError` format. -/
def parseInt10 (s : String) : Except String Int :=
  let synErr : Except String Int :=
    .error ("strconv.ParseInt: parsing " ++ goQuote s ++ ": invalid syntax")
  let rangeErr : Except String Int :=
    .error ("strconv.ParseInt: parsing " ++ goQuote s ++ ": value out of range")
  match s.data with
  | [] => synErr
  | c :: cs =>
    let (neg, digits) :=
      if c = '-' then (true, cs)
      else if c = '+' then (false, cs)
      else (false, c :: cs)
    if digits.isEmpty then synErr
    else if digits.all Char.isDigit then
      let n : Nat := digits.foldl (fun acc d => acc * 10 + (d.toNat - 48)) 0
      if neg then
        if n ≤ 2 ^ 63 then .ok (-(n : Int)) else rangeErr
      else
        if n ≤ 2 ^ 63 - 1 then .ok (n : Int) else rangeErr
    else synErr

/-- The option-processing loop of `createDiskConfig`: each recognized key
updates the configuration, an unparsable `SizeGb` aborts with the parse
error, and any unrecognized key aborts with an unknown-option error. -/
def applyOptions (c : DiskConfig) : List (String × String) → Except String DiskConfig
  | [] => .ok c
  | (key, value) :: rest =>
    match key with
    | "Name" => applyOptions { c with Name := value } rest
    | "Type" => applyOptions { c with Type_ := value } rest
    | "SizeGb" =>
      match parseInt10 value with
      | .error e => .error e
      | .ok n => applyOptions { c with SizeGb := n } rest
    | "SourceSnapshot" => applyOptions { c with SourceSnapshot := value } rest
    | "SourceImage" => applyOptions { c with SourceImage := value } rest
    | _ => .error ("unknown option " ++ goQuote key)

/-- `Volume.createDiskConfig`: start from the request name, fold the option
mapping, then run the structural validation. -/
def createDiskConfig (r : Request) : Except String DiskConfig :=
  match applyOptions { Name := r.Name } r.Options with
  | .error e => .error e
  | .ok config =>
    match config.Validate with
    | some e => .error e
    | none => .ok config

/-- `buildReponseError` (sic): the uniform error response, carrying only
the textual description of the error. -/
def buildReponseError (e : String) : Response := { Err := e }

/-- `Volume.createMountPoint`: stat the computed mount path; if it does not
exist, create it and all parents with mode 0755; if stat failed otherwise,
propagate; if the path exists but is not a directory, conflict error. -/
def createMountPoint (v : Volume) (c : DiskConfig) : Option String × Trace :=
  let target := c.MountPoint v.Root
  match v.env.fsStat target with
  | .notExist => (v.env.fsMkdirAll target, [.fsStat target, .fsMkdirAll target 493])
  | .otherError e => (some e, [.fsStat target])
  | .ok isDir =>
    if ¬ isDir then
      (some ("error the mountpoint " ++ goQuote target ++ " already exists"),
        [.fsStat target])
    else (none, [.fsStat target])

/-- `Volume.Create`: derive and validate the configuration, then ask the
provider to create the disk. -/
def Volume.Create (v : Volume) (r : Request) : Response × Trace :=
  match createDiskConfig r with
  | .error e => (buildReponseError e, [])
  | .ok config =>
    match v.env.providerCreate config with
    | some e => (buildReponseError e, [.providerCreate config])
    | none => ({}, [.providerCreate config])

/-- The filtering loop of `Volume.List`: disks whose status is not READY
are skipped, the rest contribute their name. -/
def listVolumes : List DiskSummary → List VolumeInfo
  | [] => []
  | d :: rest =>
    if d.Status ≠ "READY" then listVolumes rest
    else { Name := d.Name } :: listVolumes rest

/-- `Volume.List`: list the provider disks and surface the READY ones. -/
def Volume.List (v : Volume) (_r : Request) : Response × Trace :=
  match v.env.providerList with
  | .error e => (buildReponseError e, [Event.providerList])
  | .ok disks => ({ Volumes := listVolumes disks }, [Event.providerList])

/-- `Volume.Capabilities`: the fixed local-scope descriptor, no external
calls. -/
def Volume.Capabilities (_v : Volume) (_r : Request) : Response × Trace :=
  ({ Capabilities := { Scope := "local" } }, [])

/-- The matching loop of `Volume.Get`: for each listed disk whose name
equals the request name, derive the configuration (aborting on a
derivation error) and record the volume payload. -/
def getLoop (v : Volume) (r : Request) : List DiskSummary → Option VolumeInfo → Response
  | [], acc => { Volume := acc }
  | d :: rest, acc =>
    if d.Name ≠ r.Name then getLoop v r rest acc
    else
      match createDiskConfig r with
      | .error e => buildReponseError e
      | .ok config =>
        getLoop v r rest (some { Name := d.Name, Mountpoint := config.MountPoint v.Root })

/-- `Volume.Get`: list the provider disks and report the one matching the
request name, if any, together with its computed mount path. -/
def Volume.Get (v : Volume) (r : Request) : Response × Trace :=
  match v.env.providerList with
  | .error e => (buildReponseError e, [Event.providerList])
  | .ok disks => (getLoop v r disks none, [Event.providerList])

/-- `Volume.Remove`: derive and validate the configuration, then ask the
provider to delete the disk. -/
def Volume.Remove (v : Volume) (r : Request) : Response × Trace :=
  match createDiskConfig r with
  | .error e => (buildReponseError e, [])
  | .ok config =>
    match v.env.providerDelete config with
    | some e => (buildReponseError e, [.providerDelete config])
    | none => ({}, [.providerDelete config])

/-- `Volume.Path`: derive the configuration, ensure the mount-point
directory exists, and return the computed mount path. -/
def Volume.Path (v : Volume) (r : Request) : Response × Trace :=
  match createDiskConfig r with
  | .error e => (buildReponseError e, [])
  | .ok config =>
    let mp := createMountPoint v config
    match mp.1 with
    | some e => (buildReponseError e, mp.2)
    | none => ({ Mountpoint := config.MountPoint v.Root }, mp.2)

/-- `Volume.Mount`: derive the configuration, ensure the mount-point
directory, attach the disk, format the device, mount it. -/
def Volume.Mount (v : Volume) (r : Request) : Response × Trace :=
  match createDiskConfig r with
  | .error e => (buildReponseError e, [])
  | .ok config =>
    let mp := createMountPoint v config
    match mp.1 with
    | some e => (buildReponseError e, mp.2)
    | none =>
      match v.env.providerAttach config with
      | some e => (buildReponseError e, mp.2 ++ [.providerAttach config])
      | none =>
        match v.env.fsFormat config.Dev with
        | some e =>
          (buildReponseError e, mp.2 ++ [.providerAttach config, .fsFormat config.Dev])
        | none =>
          match v.env.fsMount config.Dev (config.MountPoint v.Root) with
          | some e =>
            (buildReponseError e,
              mp.2 ++ [.providerAttach config, .fsFormat config.Dev,
                .fsMount config.Dev (config.MountPoint v.Root)])
          | none =>
            ({ Mountpoint := config.MountPoint v.Root },
              mp.2 ++ [.providerAttach config, .fsFormat config.Dev,
                .fsMount config.Dev (config.MountPoint v.Root)])

/-- `Volume.Unmount`: derive the configuration, unmount the computed mount
path, then detach the disk. -/
def Volume.Unmount (v : Volume) (r : Request) : Response × Trace :=
  match createDiskConfig r with
  | .error e => (buildReponseError e, [])
  | .ok config =>
    let mp := config.MountPoint v.Root
    match v.env.fsUnmount mp with
    | some e => (buildReponseError e, [.fsUnmount mp])
    | none =>
      match v.env.providerDetach config with
      | some e => (buildReponseError e, [.fsUnmount mp, .providerDetach config])
      | none => ({}, [.fsUnmount mp, .providerDetach config])

/-- The eight operations of the upward interface. -/
inductive Op where
  | create | list | capabilities | get | remove | path | mount | unmount
deriving DecidableEq, Repr

/-- Dispatch an operation of the upward interface. -/
def runOp : Op → Volume → Request → Response × Trace
  | .create, v, r => v.Create r
  | .list, v, r => v.List r
  | .capabilities, v, r => v.Capabilities r
  | .get, v, r => v.Get r
  | .remove, v, r => v.Remove r
  | .path, v, r => v.Path r
  | .mount, v, r => v.Mount r
  | .unmount, v, r => v.Unmount r

/-! ### Concrete environments used by witnesses -/

/-- An environment in which every external call succeeds and the provider
lists no disks. -/
def envBase : Env where
  providerCreate := fun _ => none
  providerList := .ok []
  providerAttach := fun _ => none
  providerDetach := fun _ => none
  providerDelete := fun _ => none
  fsStat := fun _ => .notExist
  fsMkdirAll := fun _ => none
  fsFormat := fun _ => none
  fsMount := fun _ _ => none
  fsUnmount := fun _ => none

/-- A ready disk named A. -/
def diskA : DiskSummary := { Name := "A", Status := "READY" }

/-- A pending disk named B. -/
def diskB : DiskSummary := { Name := "B", Status := "PENDING" }

/-- Environment whose provider lists disk A (ready) and disk B (pending). -/
def envAB : Env := { envBase with providerList := .ok [diskA, diskB] }

/-- Environment whose provider listing fails. -/
def envListErr : Env := { envBase with providerList := .error "boom" }

/-- Driver over `envBase` with the default root. -/
def v0 : Volume := { Root := "/mnt/", env := envBase }

/-- Driver over `envAB`. -/
def vAB : Volume := { Root := "/mnt/", env := envAB }

/-- Driver over `envListErr`. -/
def vListErr : Volume := { Root := "/mnt/", env := envListErr }

/-- A request whose option mapping contains an unrecognized key. -/
def reqBogus : Request := { Name := "v", Options := [("Bogus", "x")] }

/-! ### Shared lemmas -/

/-- The List filtering loop keeps exactly the READY disks, in order,
mapping each to its name. -/
theorem listVolumes_eq_filter (ds : List DiskSummary) :
    listVolumes ds =
      (ds.filter (fun d => d.Status == "READY")).map
        (fun d => ({ Name := d.Name } : VolumeInfo)) := by
  induction ds with
  | nil => rfl
  | cons d rest ih =>
    by_cases h : d.Status = "READY"
    · simp [listVolumes, h, List.filter_cons, ih]
    · simp [listVolumes, h, List.filter_cons, ih]

/-- A response-trace pair is error-uniform when a populated error field
forces the whole response to be the uniform error response. -/
abbrev uniformErr (p : Response × Trace) : Prop :=
  p.1.Err ≠ "" → p.1 = buildReponseError p.1.Err

theorem uniformErr_Create (v : Volume) (r : Request) : uniformErr (v.Create r) := by
  unfold uniformErr Volume.Create
  split
  · exact fun _ => rfl
  · split
    · exact fun _ => rfl
    · exact fun h => absurd rfl h

theorem uniformErr_List (v : Volume) (r : Request) : uniformErr (v.List r) := by
  unfold uniformErr Volume.List
  split
  · exact fun _ => rfl
  · exact fun h => absurd rfl h

theorem uniformErr_Capabilities (v : Volume) (r : Request) :
    uniformErr (v.Capabilities r) := by
  exact fun h => absurd rfl h

theorem uniformErr_getLoop (v : Volume) (r : Request) (disks : List DiskSummary)
    (acc : Option VolumeInfo) :
    (getLoop v r disks acc).Err ≠ "" →
      getLoop v r disks acc = buildReponseError (getLoop v r disks acc).Err := by
  induction disks generalizing acc with
  | nil => exact fun h => absurd rfl h
  | cons d rest ih =>
    unfold getLoop
    split
    · exact ih acc
    · split
      · exact fun _ => rfl
      · exact fun h => ih _ h

theorem uniformErr_Get (v : Volume) (r : Request) : uniformErr (v.Get r) := by
  unfold uniformErr Volume.Get
  split
  · exact fun _ => rfl
  · exact uniformErr_getLoop v r _ none

theorem uniformErr_Remove (v : Volume) (r : Request) : uniformErr (v.Remove r) := by
  unfold uniformErr Volume.Remove
  split
  · exact fun _ => rfl
  · split
    · exact fun _ => rfl
    · exact fun h => absurd rfl h

theorem uniformErr_Path (v : Volume) (r : Request) : uniformErr (v.Path r) := by
  unfold uniformErr
  simp only [Volume.Path]
  split
  · exact fun _ => rfl
  · split
    · exact fun _ => rfl
    · exact fun h => absurd rfl h

theorem uniformErr_Mount (v : Volume) (r : Request) : uniformErr (v.Mount r) := by
  unfold uniformErr
  simp only [Volume.Mount]
  split
  · exact fun _ => rfl
  · split
    · exact fun _ => rfl
    · split
      · exact fun _ => rfl
      · split
        · exact fun _ => rfl
        · split
          · exact fun _ => rfl
          · exact fun h => absurd rfl h

theorem uniformErr_Unmount (v : Volume) (r : Request) : uniformErr (v.Unmount r) := by
  unfold uniformErr
  simp only [Volume.Unmount]
  split
  · exact fun _ => rfl
  · split
    · exact fun _ => rfl
    · split
      · exact fun _ => rfl
      · exact fun h => absurd rfl h

/-! ### Claim theorems -/

/-- C4: for every disk list returned by the provider, List returns exactly
the names of the disks whose status is READY, in order, omitting every
disk in any other status, and reports no error. -/
theorem C4_list_ready_only (v : Volume) (r : Request) (disks : List DiskSummary)
    (h : v.env.providerList = .ok disks) :
    (v.List r).1.Err = "" ∧
    (v.List r).1.Volumes =
      (disks.filter (fun d => d.Status == "READY")).map
        (fun d => ({ Name := d.Name } : VolumeInfo)) := by
  simp [Volume.List, h, listVolumes_eq_filter]

/-- C4 witness: provider disks [{A, READY}, {B, PENDING}] yield exactly
the volume list [A]. -/
theorem C4_list_ready_only_witness :
    vAB.env.providerList = .ok [diskA, diskB] ∧
    (vAB.List { Name := "x" }).1.Err = "" ∧
    (vAB.List { Name := "x" }).1.Volumes = [{ Name := "A", Mountpoint := "" }] := by
  refine ⟨rfl, (C4_list_ready_only vAB { Name := "x" } [diskA, diskB] rfl).1, ?_⟩
  rw [(C4_list_ready_only vAB { Name := "x" } [diskA, diskB] rfl).2]
  decide

/-- C10: List and Capabilities never derive or validate a config: the List
response is independent of the request (so no option can make it a
configuration error), its only external call is provider.List, it
propagates a provider listing error and reports none on success;
Capabilities always returns the fixed local-scope descriptor with no
external calls. -/
theorem C10_list_capabilities_ignore_request (v : Volume) (r r2 : Request) :
    v.List r = v.List r2 ∧
    v.Capabilities r = ({ Capabilities := { Scope := "local" } }, []) ∧
    (v.List r).2 = [Event.providerList] ∧
    (∀ e, v.env.providerList = .error e → (v.List r).1 = buildReponseError e) ∧
    (∀ disks, v.env.providerList = .ok disks → (v.List r).1.Err = "") := by
  refine ⟨rfl, rfl, ?_, ?_, ?_⟩
  · unfold Volume.List
    split <;> rfl
  · intro e he
    simp [Volume.List, he]
  · intro disks hd
    simp [Volume.List, hd]

/-- C10 witness: with an unknown option key in the request, List still
propagates the provider error verbatim in one environment and succeeds in
another, and Capabilities is the fixed descriptor. -/
theorem C10_list_capabilities_ignore_request_witness :
    (vListErr.env.providerList = .error "boom" ∧
      (vListErr.List reqBogus).1 = buildReponseError "boom") ∧
    (vAB.env.providerList = .ok [diskA, diskB] ∧
      (vAB.List reqBogus).1.Err = "") ∧
    vAB.Capabilities reqBogus = ({ Capabilities := { Scope := "local" } }, []) := by
  refine ⟨⟨rfl, ?_⟩, ⟨rfl, ?_⟩, ?_⟩
  · exact (C10_list_capabilities_ignore_request vListErr reqBogus reqBogus).2.2.2.1 "boom" rfl
  · exact (C10_list_capabilities_ignore_request vAB reqBogus reqBogus).2.2.2.2 [diskA, diskB] rfl
  · exact (C10_list_capabilities_ignore_request vAB reqBogus reqBogus).2.1

/-- C7: buildReponseError carries exactly the textual description of the
error and leaves every success payload field unpopulated, and for every
operation of the upward interface, a response with a populated error field
is exactly that uniform error response.  Every operation is a total Lean
function, so the upward interface always returns a well-formed response. -/
theorem C7_error_response_contract (op : Op) (v : Volume) (r : Request) :
    (∀ e, buildReponseError e =
      { Err := e, Volumes := [], Volume := none, Mountpoint := "",
        Capabilities := { Scope := "" } }) ∧
    ((runOp op v r).1.Err ≠ "" →
      (runOp op v r).1 = buildReponseError (runOp op v r).1.Err) := by
  refine ⟨fun e => rfl, ?_⟩
  cases op with
  | create => exact uniformErr_Create v r
  | list => exact uniformErr_List v r
  | capabilities => exact uniformErr_Capabilities v r
  | get => exact uniformErr_Get v r
  | remove => exact uniformErr_Remove v r
  | path => exact uniformErr_Path v r
  | mount => exact uniformErr_Mount v r
  | unmount => exact uniformErr_Unmount v r

/-- C7 witness: a Create request with an unknown option produces a
populated error field and the response is exactly the uniform error
response. -/
theorem C7_error_response_contract_witness :
    (runOp Op.create v0 reqBogus).1.Err ≠ "" ∧
    (runOp Op.create v0 reqBogus).1 =
      buildReponseError (runOp Op.create v0 reqBogus).1.Err := by
  exact ⟨by decide, (C7_error_response_contract Op.create v0 reqBogus).2 (by decide)⟩

/-- Environment in which the mount point exists as a directory and
attaching the disk fails with the text disk busy. -/
def envAttachBusy : Env :=
  { envBase with
      providerAttach := fun _ => some "disk busy"
      fsStat := fun _ => .ok true }

/-- Driver over `envAttachBusy`. -/
def vBusy : Volume := { Root := "/mnt/", env := envAttachBusy }

/-- Environment in which unmounting fails with the text device busy. -/
def envUnmountBusy : Env :=
  { envBase with fsUnmount := fun _ => some "device busy" }

/-- Driver over `envUnmountBusy`. -/
def vUB : Volume := { Root := "/mnt/", env := envUnmountBusy }

/-- A request for the volume data1 with no options. -/
def reqD1 : Request := { Name := "data1" }

/-- The configuration derived from `reqD1`. -/
def cfgD1 : DiskConfig := { Name := "data1" }

/-- The mount-point-preparation step issues a stat, followed by at most
one recursive directory creation; it never calls the provider. -/
theorem createMountPoint_trace (v : Volume) (c : DiskConfig) :
    (createMountPoint v c).2 = [Event.fsStat (c.MountPoint v.Root)] ∨
    (createMountPoint v c).2 = [Event.fsStat (c.MountPoint v.Root),
      Event.fsMkdirAll (c.MountPoint v.Root) 493] := by
  simp only [createMountPoint]
  split
  · exact Or.inr rfl
  · exact Or.inl rfl
  · split
    · exact Or.inl rfl
    · exact Or.inl rfl

/-- C2: the trace of Mount is always a prefix-closed sequence
ensure-directory calls, then provider.Attach, then filesystem.Format, then
filesystem.Mount; the ensure-directory calls are a stat possibly followed
by a mkdir; and when provider.Attach fails with some error, the response
error field is exactly that text, the trace stops at the attach call, and
no format or mount call occurs. -/
theorem C2_mount_call_order (v : Volume) (r : Request) :
    ((v.Mount r).2 = [] ∨
      ∃ config, createDiskConfig r = .ok config ∧
        ((v.Mount r).2 = (createMountPoint v config).2 ∨
          (v.Mount r).2 = (createMountPoint v config).2 ++ [Event.providerAttach config] ∨
          (v.Mount r).2 = (createMountPoint v config).2 ++
            [Event.providerAttach config, Event.fsFormat config.Dev] ∨
          (v.Mount r).2 = (createMountPoint v config).2 ++
            [Event.providerAttach config, Event.fsFormat config.Dev,
              Event.fsMount config.Dev (config.MountPoint v.Root)])) ∧
    (∀ config, (createMountPoint v config).2 = [Event.fsStat (config.MountPoint v.Root)] ∨
      (createMountPoint v config).2 = [Event.fsStat (config.MountPoint v.Root),
        Event.fsMkdirAll (config.MountPoint v.Root) 493]) ∧
    (∀ config e, createDiskConfig r = .ok config →
      (createMountPoint v config).1 = none →
      v.env.providerAttach config = some e →
      (v.Mount r).1.Err = e ∧
      (v.Mount r).2 = (createMountPoint v config).2 ++ [Event.providerAttach config] ∧
      ∀ ev ∈ (v.Mount r).2,
        (∀ d, ev ≠ Event.fsFormat d) ∧ ∀ d t, ev ≠ Event.fsMount d t) := by
  refine ⟨?_, fun config => createMountPoint_trace v config, ?_⟩
  · simp only [Volume.Mount]
    split
    · exact Or.inl rfl
    · rename_i config heq
      refine Or.inr ⟨config, heq, ?_⟩
      split
      · exact Or.inl rfl
      · split
        · exact Or.inr (Or.inl rfl)
        · split
          · exact Or.inr (Or.inr (Or.inl rfl))
          · split
            · exact Or.inr (Or.inr (Or.inr rfl))
            · exact Or.inr (Or.inr (Or.inr rfl))
  · intro config e hc hmp ha
    have hm : v.Mount r = (buildReponseError e,
        (createMountPoint v config).2 ++ [Event.providerAttach config]) := by
      simp [Volume.Mount, hc, hmp, ha]
    refine ⟨by rw [hm]; rfl, by rw [hm], ?_⟩
    rw [hm]
    rcases createMountPoint_trace v config with h2 | h2 <;> rw [h2] <;> intro ev hev <;>
      simp only [List.cons_append, List.nil_append, List.mem_cons,
        List.not_mem_nil, or_false] at hev
    · rcases hev with rfl | rfl <;> exact ⟨fun d => by simp, fun d t => by simp⟩
    · rcases hev with rfl | rfl | rfl <;> exact ⟨fun d => by simp, fun d t => by simp⟩

/-- C2 witness: with a provider whose Attach fails with the text disk
busy, Mount reports exactly that text and its trace ends at the attach
call. -/
theorem C2_mount_call_order_witness :
    createDiskConfig reqD1 = .ok cfgD1 ∧
    (createMountPoint vBusy cfgD1).1 = none ∧
    vBusy.env.providerAttach cfgD1 = some "disk busy" ∧
    (vBusy.Mount reqD1).1.Err = "disk busy" ∧
    (vBusy.Mount reqD1).2 =
      (createMountPoint vBusy cfgD1).2 ++ [Event.providerAttach cfgD1] := by
  have h := (C2_mount_call_order vBusy reqD1).2.2 cfgD1 "disk busy"
    (by decide) (by decide) rfl
  exact ⟨by decide, by decide, rfl, h.1, h.2.1⟩

/-- C3: the trace of Unmount is empty, or the unmount call on the computed
mount path, possibly followed by the detach call (never the other order);
and when filesystem.Unmount fails with some error, the response is the
uniform error response for that text and provider.Detach is never
invoked. -/
theorem C3_unmount_before_detach (v : Volume) (r : Request) :
    ((v.Unmount r).2 = [] ∨
      ∃ config, createDiskConfig r = .ok config ∧
        ((v.Unmount r).2 = [Event.fsUnmount (config.MountPoint v.Root)] ∨
          (v.Unmount r).2 = [Event.fsUnmount (config.MountPoint v.Root),
            Event.providerDetach config])) ∧
    (∀ config e, createDiskConfig r = .ok config →
      v.env.fsUnmount (config.MountPoint v.Root) = some e →
      (v.Unmount r).1 = buildReponseError e ∧
      (v.Unmount r).2 = [Event.fsUnmount (config.MountPoint v.Root)]) := by
  constructor
  · simp only [Volume.Unmount]
    split
    · exact Or.inl rfl
    · rename_i config heq
      refine Or.inr ⟨config, heq, ?_⟩
      split
      · exact Or.inl rfl
      · split
        · exact Or.inr rfl
        · exact Or.inr rfl
  · intro config e hc hu
    constructor <;> simp [Volume.Unmount, hc, hu, buildReponseError]

/-- C3 witness: with a filesystem whose Unmount fails with the text device
busy, Unmount reports exactly that text and never calls Detach. -/
theorem C3_unmount_before_detach_witness :
    createDiskConfig reqD1 = .ok cfgD1 ∧
    vUB.env.fsUnmount (cfgD1.MountPoint vUB.Root) = some "device busy" ∧
    (vUB.Unmount reqD1).1 = buildReponseError "device busy" ∧
    (vUB.Unmount reqD1).2 = [Event.fsUnmount "/mnt/data1"] := by
  have h := (C3_unmount_before_detach vUB reqD1).2 cfgD1 "device busy" (by decide) rfl
  refine ⟨by decide, rfl, h.1, ?_⟩
  rw [h.2]
  decide

/-- Environment in which the mount point already exists as a directory. -/
def envDirExists : Env := { envBase with fsStat := fun _ => .ok true }

/-- Environment in which the mount point exists as a regular file. -/
def envFileExists : Env := { envBase with fsStat := fun _ => .ok false }

/-- Environment in which stat fails with an error other than not-exists. -/
def envStatErr : Env :=
  { envBase with fsStat := fun _ => .otherError "permission denied" }

/-- Driver over `envDirExists`. -/
def vDir : Volume := { Root := "/mnt/", env := envDirExists }

/-- Driver over `envFileExists`. -/
def vFile : Volume := { Root := "/mnt/", env := envFileExists }

/-- Driver over `envStatErr`. -/
def vStatErr : Volume := { Root := "/mnt/", env := envStatErr }

/-- When no listed disk matches the request name, the Get loop leaves its
accumulator untouched and reports it as the (possibly absent) volume. -/
theorem getLoop_no_match (v : Volume) (r : Request) :
    ∀ (disks : List DiskSummary) (acc : Option VolumeInfo),
      (∀ d ∈ disks, d.Name ≠ r.Name) → getLoop v r disks acc = { Volume := acc }
  | [], _, _ => rfl
  | d :: rest, acc, h => by
    unfold getLoop
    rw [if_pos (h d (List.mem_cons_self d rest))]
    exact getLoop_no_match v r rest acc (fun x hx => h x (List.mem_cons_of_mem d hx))

/-- When the derivation succeeds, the Get loop reports the request name and
its computed mount path exactly when some listed disk matches the request
name. -/
theorem getLoop_found (v : Volume) (r : Request) (config : DiskConfig)
    (hc : createDiskConfig r = .ok config) :
    ∀ (disks : List DiskSummary) (acc : Option VolumeInfo),
      getLoop v r disks acc =
        { Volume := if disks.any (fun d => d.Name == r.Name) then
            some { Name := r.Name, Mountpoint := config.MountPoint v.Root } else acc }
  | [], acc => by simp [getLoop]
  | d :: rest, acc => by
    by_cases hd : d.Name = r.Name
    · simp only [getLoop, hc]
      rw [if_neg (fun hne : d.Name ≠ r.Name => hne hd)]
      rw [getLoop_found v r config hc rest _]
      simp [hd]
    · simp only [getLoop]
      rw [if_pos hd]
      rw [getLoop_found v r config hc rest acc]
      simp [hd]

/-- C5: when the provider listing succeeds, a Get whose name matches no
listed disk returns the empty success response (no error, no volume
payload) after the single listing call; and a Get whose name matches a
listed disk and whose options derive a valid config returns that name
together with the computed mount path. -/
theorem C5_get_semantics (v : Volume) (r : Request) (disks : List DiskSummary)
    (h : v.env.providerList = .ok disks) :
    ((∀ d ∈ disks, d.Name ≠ r.Name) → v.Get r = ({}, [Event.providerList])) ∧
    (∀ config, createDiskConfig r = .ok config → (∃ d ∈ disks, d.Name = r.Name) →
      v.Get r =
        ({ Volume := some { Name := r.Name, Mountpoint := config.MountPoint v.Root } },
          [Event.providerList])) := by
  constructor
  · intro hnone
    simp [Volume.Get, h, getLoop_no_match v r disks none hnone]
  · rintro config hc ⟨d, hd, hdn⟩
    have hany : disks.any (fun x => x.Name == r.Name) = true := by
      simp only [List.any_eq_true]
      exact ⟨d, hd, by simp [hdn]⟩
    simp [Volume.Get, h, getLoop_found v r config hc disks none, hany]

/-- C5 witness: over disks [{A, READY}, {B, PENDING}], Get for the
unmatched name Z is the empty success response and Get for A returns A
with mount path /mnt/A. -/
theorem C5_get_semantics_witness :
    vAB.env.providerList = .ok [diskA, diskB] ∧
    (∀ d ∈ [diskA, diskB], d.Name ≠ "Z") ∧
    vAB.Get { Name := "Z" } = ({}, [Event.providerList]) ∧
    createDiskConfig { Name := "A" } = .ok { Name := "A" } ∧
    (∃ d ∈ [diskA, diskB], d.Name = "A") ∧
    vAB.Get { Name := "A" } =
      ({ Volume := some { Name := "A", Mountpoint := "/mnt/A" } },
        [Event.providerList]) := by
  refine ⟨rfl, by decide, ?_, by decide, by decide, ?_⟩
  · exact (C5_get_semantics vAB { Name := "Z" } [diskA, diskB] rfl).1 (by decide)
  · have h2 := (C5_get_semantics vAB { Name := "A" } [diskA, diskB] rfl).2
      { Name := "A" } (by decide) (by decide)
    rw [h2]
    decide

/-- C6: the mount-point-preparation step is a three-branch decision on the
stat of the computed mount path: not-exists leads to a recursive directory
creation whose result is returned; an existing non-directory yields the
conflict error; any other stat failure is propagated; a stat reporting a
directory succeeds.  In particular, Path on a mount path that exists as a
regular file fails with the conflict error and its whole trace is the
single stat call — no provider call. -/
theorem C6_mountpoint_stat_branches (v : Volume) (c : DiskConfig) (r : Request) :
    (v.env.fsStat (c.MountPoint v.Root) = .notExist →
      createMountPoint v c = (v.env.fsMkdirAll (c.MountPoint v.Root),
        [Event.fsStat (c.MountPoint v.Root),
          Event.fsMkdirAll (c.MountPoint v.Root) 493])) ∧
    (v.env.fsStat (c.MountPoint v.Root) = .ok true →
      createMountPoint v c = (none, [Event.fsStat (c.MountPoint v.Root)])) ∧
    (v.env.fsStat (c.MountPoint v.Root) = .ok false →
      createMountPoint v c = (some ("error the mountpoint " ++
          goQuote (c.MountPoint v.Root) ++ " already exists"),
        [Event.fsStat (c.MountPoint v.Root)])) ∧
    (∀ m, v.env.fsStat (c.MountPoint v.Root) = .otherError m →
      createMountPoint v c = (some m, [Event.fsStat (c.MountPoint v.Root)])) ∧
    (∀ config, createDiskConfig r = .ok config →
      v.env.fsStat (config.MountPoint v.Root) = .ok false →
      (v.Path r).1.Err = "error the mountpoint " ++
        goQuote (config.MountPoint v.Root) ++ " already exists" ∧
      (v.Path r).2 = [Event.fsStat (config.MountPoint v.Root)]) := by
  refine ⟨?_, ?_, ?_, ?_, ?_⟩
  · intro h
    simp [createMountPoint, h]
  · intro h
    simp [createMountPoint, h]
  · intro h
    simp [createMountPoint, h]
  · intro m h
    simp [createMountPoint, h]
  · intro config hc hstat
    constructor <;>
      simp [Volume.Path, createMountPoint, hc, hstat, buildReponseError]

/-- C6 witness: each stat branch at a concrete input, and Path over a
mount path that exists as a regular file. -/
theorem C6_mountpoint_stat_branches_witness :
    (v0.env.fsStat (cfgD1.MountPoint v0.Root) = .notExist ∧
      createMountPoint v0 cfgD1 =
        (none, [Event.fsStat "/mnt/data1", Event.fsMkdirAll "/mnt/data1" 493])) ∧
    (vDir.env.fsStat (cfgD1.MountPoint vDir.Root) = .ok true ∧
      createMountPoint vDir cfgD1 = (none, [Event.fsStat "/mnt/data1"])) ∧
    (vStatErr.env.fsStat (cfgD1.MountPoint vStatErr.Root) =
        .otherError "permission denied" ∧
      createMountPoint vStatErr cfgD1 =
        (some "permission denied", [Event.fsStat "/mnt/data1"])) ∧
    (createDiskConfig reqD1 = .ok cfgD1 ∧
      vFile.env.fsStat (cfgD1.MountPoint vFile.Root) = .ok false ∧
      (vFile.Path reqD1).1.Err =
        "error the mountpoint \"/mnt/data1\" already exists" ∧
      (vFile.Path reqD1).2 = [Event.fsStat "/mnt/data1"]) := by
  refine ⟨⟨rfl, ?_⟩, ⟨rfl, ?_⟩, ⟨rfl, ?_⟩, ⟨by decide, rfl, ?_, ?_⟩⟩
  · rw [(C6_mountpoint_stat_branches v0 cfgD1 reqD1).1 rfl]
    decide
  · rw [(C6_mountpoint_stat_branches vDir cfgD1 reqD1).2.1 rfl]
    decide
  · rw [(C6_mountpoint_stat_branches vStatErr cfgD1 reqD1).2.2.2.1
      "permission denied" rfl]
    decide
  · rw [((C6_mountpoint_stat_branches vFile cfgD1 reqD1).2.2.2.2 cfgD1
      (by decide) rfl).1]
    decide
  · rw [((C6_mountpoint_stat_branches vFile cfgD1 reqD1).2.2.2.2 cfgD1
      (by decide) rfl).2]
    decide

/-- The closed set of option keys recognized by the derivation. -/
def recognizedKeys : List String :=
  ["Name", "Type", "SizeGb", "SourceSnapshot", "SourceImage"]

/-- A request whose SizeGb option value is not a base-10 integer. -/
def reqBadSize : Request := { Name := "d", Options := [("SizeGb", "abc")] }

/-- A request overriding the name and setting the disk type. -/
def reqNamed : Request :=
  { Name := "data1", Options := [("Name", "override"), ("Type", "pd-ssd")] }

/-- A successful run of the option loop used only recognized keys, and
every SizeGb value it consumed parsed as a base-10 integer. -/
theorem applyOptions_ok_keys :
    ∀ (opts : List (String × String)) (c c2 : DiskConfig),
      applyOptions c opts = .ok c2 →
      ∀ kv ∈ opts, kv.1 ∈ recognizedKeys ∧
        (kv.1 = "SizeGb" → ∃ n, parseInt10 kv.2 = .ok n)
  | [], _, _, _, kv, hmem => absurd hmem (List.not_mem_nil kv)
  | (key, value) :: rest, c, c2, hok, kv, hmem => by
    rcases List.mem_cons.mp hmem with heq | hrest
    · subst heq
      simp only [applyOptions] at hok
      split at hok
      · exact ⟨by simp [recognizedKeys], fun hsz => by simp at hsz⟩
      · exact ⟨by simp [recognizedKeys], fun hsz => by simp at hsz⟩
      · split at hok
        · exact absurd hok (by simp)
        · rename_i n hn
          exact ⟨by simp [recognizedKeys], fun _ => ⟨n, hn⟩⟩
      · exact ⟨by simp [recognizedKeys], fun hsz => by simp at hsz⟩
      · exact ⟨by simp [recognizedKeys], fun hsz => by simp at hsz⟩
      · exact absurd hok (by simp)
    · simp only [applyOptions] at hok
      split at hok
      · exact applyOptions_ok_keys rest _ c2 hok kv hrest
      · exact applyOptions_ok_keys rest _ c2 hok kv hrest
      · split at hok
        · exact absurd hok (by simp)
        · exact applyOptions_ok_keys rest _ c2 hok kv hrest
      · exact applyOptions_ok_keys rest _ c2 hok kv hrest
      · exact applyOptions_ok_keys rest _ c2 hok kv hrest
      · exact absurd hok (by simp)

/-- A successful derivation is a successful option loop followed by a
passing validation. -/
theorem createDiskConfig_ok_apply (r : Request) (config : DiskConfig)
    (h : createDiskConfig r = .ok config) :
    applyOptions { Name := r.Name } r.Options = .ok config ∧
      config.Validate = none := by
  unfold createDiskConfig at h
  split at h
  · exact absurd h (by simp)
  · rename_i config2 heq
    split at h
    · exact absurd h (by simp)
    · rename_i hval
      injection h with hh
      subst hh
      exact ⟨heq, hval⟩

/-- C1 counterexample: at the concrete unknown-option request `reqBogus`,
the List operation returns no error at all (so in particular no
unknown-option error) and issues one provider call, and Get likewise
succeeds after one provider call — refuting the claim for the operations
List and Get. -/
theorem C1_counterexample :
    ("Bogus", "x") ∈ reqBogus.Options ∧ "Bogus" ∉ recognizedKeys ∧
    (vAB.List reqBogus).1.Err = "" ∧ (vAB.List reqBogus).2 = [Event.providerList] ∧
    (vAB.Get reqBogus).1.Err = "" ∧ (vAB.Get reqBogus).2 = [Event.providerList] := by
  decide

/-- C1 (amended): for each of the operations that derive a configuration
before any external call — Create, Remove, Path, Mount and Unmount — an
option mapping containing a key outside the recognized set makes the
operation return the derivation error and issue zero provider and zero
filesystem calls. -/
theorem C1_unknown_option_blocks (v : Volume) (r : Request) (k val : String)
    (hmem : (k, val) ∈ r.Options) (hk : k ∉ recognizedKeys) :
    ∃ e, createDiskConfig r = .error e ∧
      v.Create r = (buildReponseError e, []) ∧
      v.Remove r = (buildReponseError e, []) ∧
      v.Path r = (buildReponseError e, []) ∧
      v.Mount r = (buildReponseError e, []) ∧
      v.Unmount r = (buildReponseError e, []) := by
  cases hcd : createDiskConfig r with
  | error e =>
    exact ⟨e, rfl, by simp [Volume.Create, hcd], by simp [Volume.Remove, hcd],
      by simp [Volume.Path, hcd], by simp [Volume.Mount, hcd],
      by simp [Volume.Unmount, hcd]⟩
  | ok config =>
    have h1 := (createDiskConfig_ok_apply r config hcd).1
    have h2 := applyOptions_ok_keys r.Options { Name := r.Name } config h1 (k, val) hmem
    exact absurd h2.1 hk

/-- C1 witness: the amended statement at the concrete request `reqBogus`:
all five config-first operations return the unknown-option error with an
empty trace. -/
theorem C1_unknown_option_blocks_witness :
    ("Bogus", "x") ∈ reqBogus.Options ∧ "Bogus" ∉ recognizedKeys ∧
    ∃ e, createDiskConfig reqBogus = .error e ∧
      v0.Create reqBogus = (buildReponseError e, []) ∧
      v0.Remove reqBogus = (buildReponseError e, []) ∧
      v0.Path reqBogus = (buildReponseError e, []) ∧
      v0.Mount reqBogus = (buildReponseError e, []) ∧
      v0.Unmount reqBogus = (buildReponseError e, []) :=
  ⟨by decide, by decide,
    C1_unknown_option_blocks v0 reqBogus "Bogus" "x" (by decide) (by decide)⟩

/-- C8: an option mapping whose SizeGb value fails base-10 integer parsing
makes derivation fail, so Create returns an error response and issues zero
external calls; and the Create request with name data1 and option SizeGb
10 calls provider.Create with the config whose Name is data1 and SizeGb is
10, returning the empty success response. -/
theorem C8_sizegb_parsing (v : Volume) (r : Request) (val pe : String) :
    (("SizeGb", val) ∈ r.Options → parseInt10 val = .error pe →
      ∃ e, createDiskConfig r = .error e ∧ v.Create r = (buildReponseError e, [])) ∧
    (v.env.providerCreate { Name := "data1", SizeGb := 10 } = none →
      v.Create { Name := "data1", Options := [("SizeGb", "10")] } =
        ({}, [Event.providerCreate { Name := "data1", SizeGb := 10 }])) := by
  constructor
  · intro hmem hpe
    cases hcd : createDiskConfig r with
    | error e => exact ⟨e, rfl, by simp [Volume.Create, hcd]⟩
    | ok config =>
      have h1 := (createDiskConfig_ok_apply r config hcd).1
      obtain ⟨n, hn⟩ := (applyOptions_ok_keys r.Options { Name := r.Name } config h1
        ("SizeGb", val) hmem).2 rfl
      rw [hpe] at hn
      exact absurd hn (by simp)
  · intro hpc
    have hcd : createDiskConfig { Name := "data1", Options := [("SizeGb", "10")] } =
        .ok { Name := "data1", SizeGb := 10 } := by decide
    simp [Volume.Create, hcd, hpc]

/-- C8 witness: the unparsable value abc blocks Create before any external
call, and the scenario Create {Name data1, SizeGb 10} succeeds through
provider.Create. -/
theorem C8_sizegb_parsing_witness :
    (("SizeGb", "abc") ∈ reqBadSize.Options ∧
      parseInt10 "abc" =
        .error "strconv.ParseInt: parsing \"abc\": invalid syntax" ∧
      ∃ e, createDiskConfig reqBadSize = .error e ∧
        v0.Create reqBadSize = (buildReponseError e, [])) ∧
    (v0.env.providerCreate { Name := "data1", SizeGb := 10 } = none ∧
      v0.Create { Name := "data1", Options := [("SizeGb", "10")] } =
        ({}, [Event.providerCreate { Name := "data1", SizeGb := 10 }])) := by
  refine ⟨⟨by decide, by decide, ?_⟩, rfl, ?_⟩
  · exact (C8_sizegb_parsing v0 reqBadSize "abc"
      "strconv.ParseInt: parsing \"abc\": invalid syntax").1 (by decide) (by decide)
  · exact (C8_sizegb_parsing v0 reqBadSize "abc" "").2 rfl

/-- After a successful option loop, the Name field is the last Name option
applied on top of the starting Name, expressed as a left fold over the
iteration order. -/
theorem applyOptions_ok_name :
    ∀ (opts : List (String × String)) (c c2 : DiskConfig),
      applyOptions c opts = .ok c2 →
      c2.Name = opts.foldl (fun acc kv => if kv.1 = "Name" then kv.2 else acc) c.Name
  | [], c, c2, h => by
    injection h with hh
    subst hh
    rfl
  | (key, value) :: rest, c, c2, h => by
    simp only [applyOptions] at h
    rw [List.foldl_cons]
    split at h
    · rw [applyOptions_ok_name rest _ c2 h]
      simp
    · rw [applyOptions_ok_name rest _ c2 h]
      simp
    · split at h
      · exact absurd h (by simp)
      · rw [applyOptions_ok_name rest _ c2 h]
        simp
    · rw [applyOptions_ok_name rest _ c2 h]
      simp
    · rw [applyOptions_ok_name rest _ c2 h]
      simp
    · exact absurd h (by simp)

/-- A fold over options containing no Name key leaves its starting value
unchanged. -/
theorem foldl_name_of_not_mem (opts : List (String × String)) :
    ∀ (init : String), "Name" ∉ opts.map Prod.fst →
      opts.foldl (fun acc kv => if kv.1 = "Name" then kv.2 else acc) init = init := by
  induction opts with
  | nil => intro init _; rfl
  | cons kv rest ih =>
    intro init h
    simp only [List.map_cons, List.mem_cons, not_or] at h
    rw [List.foldl_cons, if_neg (fun hh => h.1 hh.symm)]
    exact ih init h.2

/-- Under pairwise-distinct keys, the last-wins fold for the Name option
agrees with association-list lookup with the request name as default. -/
theorem foldl_name_lookup (opts : List (String × String))
    (hnd : (opts.map Prod.fst).Nodup) :
    ∀ (init : String),
      opts.foldl (fun acc kv => if kv.1 = "Name" then kv.2 else acc) init =
        (opts.lookup "Name").getD init := by
  induction opts with
  | nil => intro init; rfl
  | cons kv rest ih =>
    intro init
    obtain ⟨key, value⟩ := kv
    simp only [List.map_cons, List.nodup_cons] at hnd
    obtain ⟨hkey, hrest⟩ := hnd
    rw [List.foldl_cons]
    by_cases hk : key = "Name"
    · subst hk
      rw [if_pos rfl, foldl_name_of_not_mem rest value hkey]
      simp [List.lookup]
    · rw [if_neg hk, ih hrest init]
      have hne : ("Name" : String) ≠ key := fun hh => hk hh.symm
      have hbeq : (("Name" : String) == key) = false := beq_eq_false_iff_ne.mpr hne
      simp [List.lookup, hbeq]

/-- C9: after every successful derivation under a genuine option map
(pairwise-distinct keys), the Name of the config is the value of the Name
option when present and the request name otherwise, and it is never
empty. -/
theorem C9_derived_name (r : Request) (config : DiskConfig)
    (hnd : (r.Options.map Prod.fst).Nodup)
    (h : createDiskConfig r = .ok config) :
    config.Name = (r.Options.lookup "Name").getD r.Name ∧ config.Name ≠ "" := by
  obtain ⟨happ, hval⟩ := createDiskConfig_ok_apply r config h
  constructor
  · rw [applyOptions_ok_name r.Options { Name := r.Name } config happ]
    exact foldl_name_lookup r.Options hnd r.Name
  · intro hempty
    unfold DiskConfig.Validate at hval
    rw [if_pos hempty] at hval
    exact Option.noConfusion hval

/-- C9 witness: a request with a Name override derives that override, and
a request without one derives the request name; both are non-empty. -/
theorem C9_derived_name_witness :
    ((reqNamed.Options.map Prod.fst).Nodup ∧
      createDiskConfig reqNamed = .ok { Name := "override", Type_ := "pd-ssd" } ∧
      ({ Name := "override", Type_ := "pd-ssd" } : DiskConfig).Name =
        (reqNamed.Options.lookup "Name").getD reqNamed.Name ∧
      ({ Name := "override", Type_ := "pd-ssd" } : DiskConfig).Name ≠ "") ∧
    ((reqD1.Options.map Prod.fst).Nodup ∧
      createDiskConfig reqD1 = .ok cfgD1 ∧
      cfgD1.Name = (reqD1.Options.lookup "Name").getD reqD1.Name ∧
      cfgD1.Name ≠ "") := by
  have h1 := C9_derived_name reqNamed { Name := "override", Type_ := "pd-ssd" }
    (by decide) (by decide)
  have h2 := C9_derived_name reqD1 cfgD1 (by decide) (by decide)
  exact ⟨⟨by decide, by decide, h1.1, h1.2⟩, ⟨by decide, by decide, h2.1, h2.2⟩⟩
